import Mathlib

/-!
Verification development for the ai-minutes core engines.

Shallow embedding of the four engines of the repository
(`src/lib/language-detector.ts`, `src/lib/transcript-manager.ts`,
`src/lib/translation-service.ts`, `src/lib/audio-manager.ts`).

Conventions of the embedding:
* JS strings are modelled as `List Char`; JS numbers as `ℚ` (exact
  rationals; the floating-point NaN value, which matters for the
  audio-metrics code, is tracked explicitly by the `JSNum` type in the
  audio section).
* Class instance state is passed explicitly: each stateful method becomes
  a function `state → result × state` (or returns an updated state).
* `Date.now()` values are passed in as explicit `now` parameters.
* Fixed regexes over the preprocessed text are modelled by equivalent
  scanners over character lists; each such modelling step is documented at
  the definition it concerns.
-/

/-! ### Shared string helpers -/

/-- Convert a string literal to the character-list representation used
throughout this development. -/
def strL (s : String) : List Char := s.data

/-- CJK ideograph range of the source regexes: `[一-鿿]`. -/
def isCJK (c : Char) : Bool := decide (0x4e00 ≤ c.toNat ∧ c.toNat ≤ 0x9fff)

/-- JS `\w` word character: `[A-Za-z0-9_]`. -/
def isWordCh (c : Char) : Bool :=
  decide ((97 ≤ c.toNat ∧ c.toNat ≤ 122) ∨ (65 ≤ c.toNat ∧ c.toNat ≤ 90) ∨
    (48 ≤ c.toNat ∧ c.toNat ≤ 57) ∨ c = '_')

/-- JS `\s` whitespace (the ASCII part, which is all the repository's
inputs use): space, tab, line feed, carriage return, vertical tab, form
feed. -/
def isJsSpace (c : Char) : Bool :=
  decide (c = ' ' ∨ c = '\t' ∨ c = '\n' ∨ c = '\r' ∨ c.toNat = 11 ∨ c.toNat = 12)

/-- JS `String.prototype.trim`. -/
def trimL (s : List Char) : List Char :=
  ((s.dropWhile isJsSpace).reverse.dropWhile isJsSpace).reverse

/-- Replace every maximal whitespace run by a single space
(`.replace(/\s+/g, ' ')`). -/
def collapseWs : List Char → List Char
  | [] => []
  | c :: rest =>
    if isJsSpace c then ' ' :: collapseWs (rest.dropWhile (fun d => isJsSpace d))
    else c :: collapseWs rest
termination_by s => s.length
decreasing_by
  all_goals simp only [List.length_cons]
  · have := (List.dropWhile_sublist (l := rest) (fun d => isJsSpace d)).length_le; omega
  · omega

/-- Does `p` occur at the head of `s`? (plain sequence comparison). -/
def startsWithSeq : List Char → List Char → Bool
  | [], _ => true
  | _ :: _, [] => false
  | p :: ps, c :: cs => p == c && startsWithSeq ps cs

/-- JS `String.prototype.includes`: does `needle` occur somewhere inside
the second argument? -/
def hasSubSeq (needle : List Char) : List Char → Bool
  | [] => needle.isEmpty
  | c :: rest => startsWithSeq needle (c :: rest) || hasSubSeq needle rest

/-- Maximal runs of characters satisfying `keep`, in order, separator
characters dropped (auxiliary accumulator form). -/
def runsByAux (keep : Char → Bool) : List Char → List Char → List (List Char)
  | [], acc => if acc.isEmpty then [] else [acc.reverse]
  | c :: rest, acc =>
    if keep c then runsByAux keep rest (c :: acc)
    else if acc.isEmpty then runsByAux keep rest []
    else acc.reverse :: runsByAux keep rest []

/-- Maximal runs of characters satisfying `keep`. -/
def runsBy (keep : Char → Bool) (s : List Char) : List (List Char) :=
  runsByAux keep s []

/-- Maximal `\w`-runs of a string: the "words" that `\b`-delimited
regexes can match (a `\b` boundary holds exactly at the two ends of such
a run, since every character of the run is a word character and every
neighbouring character is not). -/
def wordRuns (s : List Char) : List (List Char) := runsBy isWordCh s

/-- Non-whitespace runs of a string. -/
def splitWsRuns (s : List Char) : List (List Char) :=
  runsBy (fun c => !isJsSpace c) s

/-- JS `text.split(/\s+/)`: like `splitWsRuns`, except that a leading
(resp. trailing) whitespace character contributes a leading (resp.
trailing) empty token, and the empty string splits to `[""]`. -/
def jsSplitWs : List Char → List (List Char)
  | [] => [[]]
  | c :: rest =>
    (if isJsSpace c then [([] : List Char)] else []) ++
      splitWsRuns (c :: rest) ++
      (if isJsSpace (rest.getLastD c) then [([] : List Char)] else [])

/-- Last `n` elements of a list (JS `slice(-n)`). -/
def takeLast (n : Nat) (l : List α) : List α := l.drop (l.length - n)

/-- JS `Math.min` on two (non-NaN) numbers.  Written out as an `if` so that
it evaluates inside the kernel. -/
def jsMinQ (a b : ℚ) : ℚ := if a ≤ b then a else b

/-- JS `Math.max` on two (non-NaN) numbers. -/
def jsMaxQ (a b : ℚ) : ℚ := if a ≤ b then b else a

/-- Insert `x` into an already sorted list, after every element `y` with
`le y x` — the insertion step of a stable insertion sort. -/
def insertSorted (le : α → α → Bool) (x : α) : List α → List α
  | [] => [x]
  | y :: ys => if le y x then y :: insertSorted le x ys else x :: y :: ys

/-- Stable sort (insertion sort), modelling JS `Array.prototype.sort`
with a comparator: `le a b` means the comparator returns `≤ 0` on
`(a, b)`.  Stability matches the ECMAScript requirement. -/
def sortJs (le : α → α → Bool) (l : List α) : List α :=
  l.foldl (fun acc x => insertSorted le x acc) []

namespace LanguageDetector

/-! ### `src/lib/language-detector.ts` -/

/-- The three supported language codes. -/
inductive Lang | zh | en | ms
deriving DecidableEq, Repr

/-- A detection outcome: a language code or `'mixed'`. -/
inductive DetLang | zh | en | ms | mixed
deriving DecidableEq, Repr

/-- Inclusion of language codes into detection outcomes (JS just reuses
the same string codes). -/
def Lang.toDet : Lang → DetLang
  | .zh => .zh | .en => .en | .ms => .ms

/-- The `commonWords` of the `zh` pattern entry. -/
def zhCommon : List (List Char) :=
  ["的", "了", "是", "我", "你", "他", "她", "它", "我们", "你们", "他们",
   "这", "那", "有", "在", "和", "与", "但是", "然后", "因为", "所以",
   "什么", "怎么", "为什么", "哪里", "什么时候", "谁", "今天", "明天", "昨天"].map strL

/-- The `commonWords` of the `en` pattern entry.  Note the capital `'I'`: the
source list keeps it uppercase while the scored text has been lowercased,
so this entry can never match — the embedding preserves that. -/
def enCommon : List (List Char) :=
  ["the", "be", "to", "of", "and", "a", "in", "that", "have", "I",
   "it", "for", "not", "on", "with", "he", "as", "you", "do", "at",
   "this", "but", "his", "by", "from", "they", "we", "say", "her", "she"].map strL

/-- The `commonWords` of the `ms` pattern entry. -/
def msCommon : List (List Char) :=
  ["yang", "dan", "atau", "dengan", "untuk", "ini", "itu", "adalah", "tidak", "ada",
   "saya", "anda", "dia", "mereka", "kita", "kami", "awak", "pada", "dalam", "ke",
   "apa", "mana", "bila", "mengapa", "bagaimana", "siapa", "hari", "masa", "tahun"].map strL

/-- Alternatives of the first `en` regex `\b(the|a|an|and|...)\b/gi`
(lowercased: the regexes are case-insensitive and the text lowercased). -/
def enP1 : List (List Char) :=
  ["the", "a", "an", "and", "or", "but", "in", "on", "at", "to", "for", "of",
   "with", "by"].map strL

/-- Alternatives of `\b(I|you|he|she|it|we|they|this|that|these|those)\b/gi`. -/
def enP2 : List (List Char) :=
  ["i", "you", "he", "she", "it", "we", "they", "this", "that", "these",
   "those"].map strL

/-- Alternatives of `\b(what|where|when|why|how|who)\b/gi`. -/
def enP3 : List (List Char) := ["what", "where", "when", "why", "how", "who"].map strL

/-- Alternatives of `\b(yang|dan|atau|dengan|untuk|ini|itu|adalah|tidak|ada)\b/gi`. -/
def msP1 : List (List Char) :=
  ["yang", "dan", "atau", "dengan", "untuk", "ini", "itu", "adalah", "tidak",
   "ada"].map strL

/-- Alternatives of `\b(saya|anda|dia|mereka|kita|kami|awak)\b/gi`. -/
def msP2 : List (List Char) :=
  ["saya", "anda", "dia", "mereka", "kita", "kami", "awak"].map strL

/-- Alternatives of `\b(apa|mana|bila|mengapa|bagaimana|siapa)\b/gi`. -/
def msP3 : List (List Char) :=
  ["apa", "mana", "bila", "mengapa", "bagaimana", "siapa"].map strL

/-- The Malay affix alternatives of `\b(me|ber|ter|ke|pe|per|di|se)[\w]+/g`. -/
def msAffixPre : List (List Char) :=
  ["me", "ber", "ter", "ke", "pe", "per", "di", "se"].map strL

/-- The Chinese punctuation character class `[，。！？；：“”‘’]` of the
second `zh` regex. -/
def zhPunct : List Char := strL "，。！？；：“”‘’"

/-- Number of matches of `/\b(w1|...|wn)\b/g` against `s`.  Every
alternative consists solely of word characters, so both `\b`s force a
match to cover exactly one maximal `\w`-run; hence the global match count
is the number of maximal word runs equal to some alternative. -/
def countAlt (alts : List (List Char)) (s : List Char) : Nat :=
  (wordRuns s).countP (fun r => alts.contains r)

/-- Number of matches of `/\b(me|ber|ter|ke|pe|per|di|se)[\w]+/g`: a match
must start at the beginning of a maximal word run (leading `\b`), begin
with one of the prefixes and continue with at least one more word
character; the greedy `[\w]+` then consumes the whole run, so each word
run yields at most one match. -/
def msAffixCount (s : List Char) : Nat :=
  (wordRuns s).countP (fun r =>
    msAffixPre.any (fun p => startsWithSeq p r && decide (p.length < r.length)))

/-- Matches of `/[一-鿿]/g`: one per CJK character. -/
def cjkCount (s : List Char) : Nat := (s.filter isCJK).length

/-- Matches of the Chinese punctuation class regex: one per listed
punctuation character. -/
def zhPunctCount (s : List Char) : Nat :=
  (s.filter (fun c => zhPunct.contains c)).length

/-- Raw per-language scores. -/
structure LangScores where
  zh : ℚ
  en : ℚ
  ms : ℚ
deriving DecidableEq, Repr

/-- Normalized per-language proportions. -/
structure LanguageBreakdown where
  zh : ℚ
  en : ℚ
  ms : ℚ
deriving DecidableEq, Repr

/-- The `preprocessText`: lowercase, replace every character that is not a
CJK ideograph, word character or whitespace by a space, collapse
whitespace and trim. -/
def preprocessText (text : List Char) : List Char :=
  trimL (collapseWs ((text.map Char.toLower).map
    (fun c => if isCJK c || isWordCh c || isJsSpace c then c else ' ')))

/-- The `calculateLanguageScores`: +2 per regex match, +3 per common-word
token, +5 per CJK character (zh bonus), +2 per Malay affix match. -/
def calculateLanguageScores (text : List Char) : LangScores :=
  let words := jsSplitWs text
  { zh := 2 * (cjkCount text : ℚ) + 2 * (zhPunctCount text : ℚ) +
      3 * ((words.countP (fun w => zhCommon.contains w) : ℚ)) +
      5 * (cjkCount text : ℚ)
    en := 2 * (countAlt enP1 text : ℚ) + 2 * (countAlt enP2 text : ℚ) +
      2 * (countAlt enP3 text : ℚ) +
      3 * ((words.countP (fun w => enCommon.contains w) : ℚ))
    ms := 2 * (countAlt msP1 text : ℚ) + 2 * (countAlt msP2 text : ℚ) +
      2 * (countAlt msP3 text : ℚ) +
      3 * ((words.countP (fun w => msCommon.contains w) : ℚ)) +
      2 * (msAffixCount text : ℚ) }

/-- The `normalizeScores`: divide by the total, defaulting to full weight on
English when the total is zero. -/
def normalizeScores (scores : LangScores) : LanguageBreakdown :=
  let total := scores.zh + scores.en + scores.ms
  if total = 0 then { zh := 0, en := 1, ms := 0 }
  else { zh := scores.zh / total, en := scores.en / total, ms := scores.ms / total }

/-- Projection `breakdown[lang]`. -/
def LanguageBreakdown.get (b : LanguageBreakdown) : Lang → ℚ
  | .zh => b.zh | .en => b.en | .ms => b.ms

/-- The `getPrimaryLanguage`: arg-max of the breakdown, falling back to
English when the maximum is below `minConfidence`. -/
def getPrimaryLanguage (b : LanguageBreakdown) (minConfidence : ℚ) : Lang :=
  let maxScore := jsMaxQ b.zh (jsMaxQ b.en b.ms)
  if maxScore < minConfidence then .en
  else if b.zh = maxScore then .zh
  else if b.en = maxScore then .en
  else .ms

/-- The `detectMixedLanguage`: the breakdown values (in object order
zh, en, ms) sorted descending; mixed iff the second exceeds 0.3. -/
def detectMixedLanguage (b : LanguageBreakdown) : Bool :=
  let sorted := sortJs (fun x y => decide (y ≤ x)) [b.zh, b.en, b.ms]
  match sorted with
  | _ :: second :: _ => decide ((3 : ℚ)/10 < second)
  | _ => false

/-- The `detectWordLanguage`: CJK presence wins, else the first pattern entry
(in order zh, en, ms) whose common-word list contains the lowercased
word, else English. -/
def detectWordLanguage (word : List Char) : Lang :=
  if word.any isCJK then .zh
  else if zhCommon.contains (word.map Char.toLower) then .zh
  else if enCommon.contains (word.map Char.toLower) then .en
  else if msCommon.contains (word.map Char.toLower) then .ms
  else .en

/-- Loop of `detectCodeSwitching`: record the index of every token whose
classified language differs from the previous token's. -/
def csAux : List (List Char) → Nat → Option Lang → List Nat
  | [], _, _ => []
  | w :: ws, i, cur =>
    let wordLang := detectWordLanguage w
    let rest := csAux ws (i + 1) (some wordLang)
    match cur with
    | some l => if wordLang ≠ l then i :: rest else rest
    | none => rest

/-- The `detectCodeSwitching` (named `...Points` here because the options
record also has a field of the source name). -/
def detectCodeSwitchingPoints (text : List Char) : List Nat :=
  csAux (jsSplitWs text) 0 none

/-- The culture-tagged marker table of `detectCulturalMarkers`. -/
def chineseMarkers : List (List Char) :=
  ["春节", "中秋", "端午", "清明", "国庆", "元宵",
   "老板", "师傅", "阿姨", "叔叔", "哥哥", "姐姐",
   "茶", "粥", "包子", "饺子", "面条"].map strL

/-- Malay marker list. -/
def malayMarkers : List (List Char) :=
  ["hari raya", "ramadan", "chinese new year", "deepavali",
   "mak", "pak", "kak", "abang", "adik",
   "nasi", "mee", "roti", "teh", "kopi"].map strL

/-- English marker list. -/
def englishMarkers : List (List Char) :=
  ["christmas", "thanksgiving", "easter", "halloween",
   "sir", "madam", "mr", "mrs", "ms",
   "coffee", "tea", "breakfast", "lunch", "dinner"].map strL

/-- The `detectCulturalMarkers`: substring-match each tagged marker, emitting
`"culture:keyword"`. -/
def detectCulturalMarkers (text : List Char) : List (List Char) :=
  let allMarkers :=
    chineseMarkers.map (fun m => (strL "chinese", m)) ++
    malayMarkers.map (fun m => (strL "malay", m)) ++
    englishMarkers.map (fun m => (strL "western", m))
  (allMarkers.filter (fun p => hasSubSeq p.2 text)).map
    (fun p => p.1 ++ strL ":" ++ p.2)

/-- One record of `languageHistory`. -/
structure HistoryEntry where
  language : DetLang
  timestamp : Int
  confidence : ℚ
deriving DecidableEq, Repr

/-- The `maxHistorySize`. -/
def maxHistorySize : Nat := 50

/-- The `calculateConfidence`: the primary language's breakdown score,
blended 70/30 with the history term when history is in use and
non-empty.  Note the history term divides the sum of the *same-language*
confidences by the length of the whole 10-record window. -/
def calculateConfidence (b : LanguageBreakdown) (primaryLanguage : Lang)
    (useHistory : Bool) (hist : List HistoryEntry) : ℚ :=
  let confidence := b.get primaryLanguage
  let confidence :=
    if useHistory && decide (0 < hist.length) then
      let recentHistory := takeLast 10 hist
      let historicalConfidence :=
        ((recentHistory.filter (fun h => h.language == primaryLanguage.toDet)).map
          (fun h => h.confidence)).sum / (recentHistory.length : ℚ)
      confidence * (7/10) + historicalConfidence * (3/10)
    else confidence
  jsMinQ confidence 1

/-- The `updateHistory`: append, evicting to the last 50 when over the cap. -/
def updateHistory (now : Int) (language : DetLang) (confidence : ℚ)
    (hist : List HistoryEntry) : List HistoryEntry :=
  let h := hist ++ [{ language := language, timestamp := now, confidence := confidence }]
  if maxHistorySize < h.length then takeLast maxHistorySize h else h

/-- Options of `detectLanguage` with their source defaults. -/
structure DetectOptions where
  useHistory : Bool
  detectCodeSwitching : Bool
  minConfidence : ℚ
deriving Repr

/-- The source's default option values. -/
def defaultDetectOptions : DetectOptions :=
  { useHistory := true, detectCodeSwitching := true, minConfidence := 3/10 }

/-- The `LanguageDetectionResult`. -/
structure LanguageDetectionResult where
  detectedLanguage : DetLang
  confidence : ℚ
  languageBreakdown : LanguageBreakdown
  codeSwitchingPoints : Option (List Nat)
  culturalMarkers : Option (List (List Char))
deriving DecidableEq, Repr

/-- The early-return result for empty/whitespace-only input. -/
def emptyDetectionResult : LanguageDetectionResult :=
  { detectedLanguage := .en
    confidence := 0
    languageBreakdown := { zh := 0, en := 0, ms := 0 }
    codeSwitchingPoints := none
    culturalMarkers := none }

/-- The `detectLanguage`.  The JS guard `!text || text.trim().length === 0`
holds exactly when every character is whitespace (including the empty
string); `now` stands for the `new Date()` taken by `updateHistory`. -/
def detectLanguage (now : Int) (text : List Char) (opts : DetectOptions)
    (hist : List HistoryEntry) : LanguageDetectionResult × List HistoryEntry :=
  if text.all isJsSpace then (emptyDetectionResult, hist) else
  let cleanText := preprocessText text
  let scores := calculateLanguageScores cleanText
  let breakdown := normalizeScores scores
  let primaryLanguage := getPrimaryLanguage breakdown opts.minConfidence
  let isMixed := detectMixedLanguage breakdown
  let codeSwitchingPoints :=
    if opts.detectCodeSwitching then detectCodeSwitchingPoints cleanText else []
  let culturalMarkers := detectCulturalMarkers cleanText
  let confidence := calculateConfidence breakdown primaryLanguage opts.useHistory hist
  let result : LanguageDetectionResult :=
    { detectedLanguage := if isMixed then DetLang.mixed else primaryLanguage.toDet
      confidence := confidence
      languageBreakdown := breakdown
      codeSwitchingPoints :=
        if 0 < codeSwitchingPoints.length then some codeSwitchingPoints else none
      culturalMarkers :=
        if 0 < culturalMarkers.length then some culturalMarkers else none }
  let hist2 :=
    if opts.useHistory then updateHistory now result.detectedLanguage confidence hist
    else hist
  (result, hist2)

end LanguageDetector

namespace TranscriptManager

/-! ### `src/lib/transcript-manager.ts` (and the `TranscriptSegment` shape
from `src/types`) -/

/-- One entry of `languageData.detectedLanguages`. -/
structure LanguageDetection where
  language : List Char
  confidence : ℚ
deriving DecidableEq, Repr

/-- The `languageData` block of a `TranscriptSegment`.  `translations` is
a JS object used as a string-keyed map: modelled as an association list
in key-insertion order. -/
structure LanguageData where
  detectedLanguages : List LanguageDetection
  primaryLanguage : List Char
  confidence : ℚ
  translations : Option (List (List Char × List Char))
  culturalNotes : Option (List (List Char))
deriving DecidableEq, Repr

/-- The `metadata` block.  `isMerged` / `originalSegmentIds` are the
extra fields `mergeSegments` adds by object spread. -/
structure SegMetadata where
  audioQuality : ℚ
  backgroundNoise : ℚ
  speakingSpeed : ℚ
  emotionalTone : List Char
  isMerged : Option Bool
  originalSegmentIds : Option (List (List Char))
deriving DecidableEq, Repr

/-- The `TranscriptSegment` (`src/types`); the `Date` timestamp is kept as
milliseconds since epoch. -/
structure TranscriptSegment where
  id : List Char
  speakerId : List Char
  content : List Char
  timestamp : Int
  languageData : LanguageData
  metadata : SegMetadata
deriving DecidableEq, Repr

/-- The manager's instance state: the entry collection plus the two
snapshot stacks. -/
structure TMState where
  transcripts : List TranscriptSegment
  undoStack : List (List TranscriptSegment)
  redoStack : List (List TranscriptSegment)
deriving DecidableEq, Repr

/-- The `maxUndoSteps`. -/
def maxUndoSteps : Nat := 50

/-- The `saveState`: push a snapshot, evict the oldest beyond the bound,
clear the redo stack. -/
def saveState (st : TMState) : TMState :=
  let u := st.undoStack ++ [st.transcripts]
  { st with
    undoStack := if maxUndoSteps < u.length then u.tail else u
    redoStack := [] }

/-- Shape `Partial<TranscriptSegment>`: each top-level field optionally
present. -/
structure SegmentPatch where
  id : Option (List Char)
  speakerId : Option (List Char)
  content : Option (List Char)
  timestamp : Option Int
  languageData : Option LanguageData
  metadata : Option SegMetadata
deriving DecidableEq, Repr

/-- The empty patch (`{}`). -/
def emptyPatch : SegmentPatch := ⟨none, none, none, none, none, none⟩

/-- Object spread `{ ...segment, ...updates }` for a segment patch. -/
def applyPatch (s : TranscriptSegment) (p : SegmentPatch) : TranscriptSegment :=
  { id := p.id.getD s.id
    speakerId := p.speakerId.getD s.speakerId
    content := p.content.getD s.content
    timestamp := p.timestamp.getD s.timestamp
    languageData := p.languageData.getD s.languageData
    metadata := p.metadata.getD s.metadata }

/-- Replace the element at position `i` (no-op when out of range),
modelling `this.transcripts[index] = ...` at a valid index. -/
def modifyAt (f : α → α) : Nat → List α → List α
  | _, [] => []
  | 0, a :: as => f a :: as
  | n + 1, a :: as => a :: modifyAt f n as

/-- The `updateSegment`. -/
def updateSegment (segmentId : List Char) (updates : SegmentPatch) (st : TMState) :
    Bool × TMState :=
  match st.transcripts.findIdx? (fun s => s.id == segmentId) with
  | none => (false, st)
  | some index =>
    let st1 := saveState st
    (true, { st1 with transcripts := modifyAt (fun s => applyPatch s updates) index st1.transcripts })

/-- The `deleteSegment` (`splice(index, 1)`). -/
def deleteSegment (segmentId : List Char) (st : TMState) : Bool × TMState :=
  match st.transcripts.findIdx? (fun s => s.id == segmentId) with
  | none => (false, st)
  | some index =>
    let st1 := saveState st
    (true, { st1 with transcripts := st1.transcripts.eraseIdx index })

/-- The `mergeTranslations` inner step: first occurrence of a language keeps
the translation, later ones are space-appended. -/
def addTranslation (merged : List (List Char × List Char)) (lang t : List Char) :
    List (List Char × List Char) :=
  match merged.find? (fun p => p.1 == lang) with
  | none => merged ++ [(lang, t)]
  | some _ => merged.map (fun p => if p.1 == lang then (p.1, p.2 ++ strL " " ++ t) else p)

/-- The `mergeTranslations`. -/
def mergeTranslations (segments : List TranscriptSegment) : List (List Char × List Char) :=
  segments.foldl
    (fun m s =>
      match s.languageData.translations with
      | none => m
      | some ts => ts.foldl (fun m2 p => addTranslation m2 p.1 p.2) m)
    []

/-- The id-resolution step of `mergeSegments`: look each id up and drop
the `undefined`s (`.map(...).filter(s => s !== undefined)`). -/
def resolveSegments (segmentIds : List (List Char)) (st : TMState) :
    List TranscriptSegment :=
  (segmentIds.map (fun id => st.transcripts.find? (fun s => s.id == id))).reduceOption

/-- The `mergeSegments`; `now` stands for the `Date.now()` used to mint the
merged id.  Fails (before any snapshot) when fewer than two ids are given
or some id does not resolve; on success the originals are removed, the
merged entry appended and the collection re-sorted by timestamp
(`Array.prototype.sort` is stable). -/
def mergeSegments (now : Nat) (segmentIds : List (List Char)) (st : TMState) :
    Bool × TMState :=
  if segmentIds.length < 2 then (false, st) else
  if (resolveSegments segmentIds st).length ≠ segmentIds.length then (false, st) else
  match resolveSegments segmentIds st with
  | [] => (false, st)  -- unreachable: `segments.length = segmentIds.length ≥ 2`
  | s0 :: _ =>
    (true,
      { saveState st with
        transcripts :=
          sortJs (fun a b => decide (a.timestamp ≤ b.timestamp))
            ((saveState st).transcripts.filter (fun s => !segmentIds.contains s.id) ++
              [{ id := strL "merged-" ++ Nat.toDigits 10 now
                 speakerId := s0.speakerId
                 content :=
                   List.intercalate (strL " ")
                     ((resolveSegments segmentIds st).map (fun s => s.content))
                 timestamp := s0.timestamp
                 languageData :=
                   { detectedLanguages := s0.languageData.detectedLanguages
                     primaryLanguage := s0.languageData.primaryLanguage
                     confidence :=
                       ((resolveSegments segmentIds st).map
                         (fun s => s.languageData.confidence)).sum /
                         ((resolveSegments segmentIds st).length : ℚ)
                     translations := some (mergeTranslations (resolveSegments segmentIds st))
                     culturalNotes :=
                       some ((resolveSegments segmentIds st).flatMap
                         (fun s => s.languageData.culturalNotes.getD [])) }
                 metadata :=
                   { s0.metadata with
                     isMerged := some true, originalSegmentIds := some segmentIds } }]) })

/-- The `splitSegment`: fails unless the id resolves and the index is
strictly inside the content; otherwise replaces the segment in place by
its two trimmed halves, the second one second later. -/
def splitSegment (segmentId : List Char) (splitIndex : Nat) (st : TMState) :
    Bool × TMState :=
  match st.transcripts.find? (fun s => s.id == segmentId) with
  | none => (false, st)
  | some segment =>
    if splitIndex = 0 ∨ segment.content.length ≤ splitIndex then (false, st) else
    let st1 := saveState st
    let firstPart := trimL (segment.content.take splitIndex)
    let secondPart := trimL (segment.content.drop splitIndex)
    let firstSegment := { segment with id := segment.id ++ strL "-1", content := firstPart }
    let secondSegment :=
      { segment with
        id := segment.id ++ strL "-2"
        content := secondPart
        timestamp := segment.timestamp + 1000 }
    let index := (st1.transcripts.findIdx? (fun s => s.id == segmentId)).getD 0
    (true,
      { st1 with
        transcripts :=
          st1.transcripts.take index ++ [firstSegment, secondSegment] ++
            st1.transcripts.drop (index + 1) })

/-- The `undo`. -/
def undo (st : TMState) : Bool × TMState :=
  match st.undoStack.getLast? with
  | none => (false, st)
  | some prev =>
    (true,
      { transcripts := prev
        undoStack := st.undoStack.dropLast
        redoStack := st.redoStack ++ [st.transcripts] })

/-- The `redo`. -/
def redo (st : TMState) : Bool × TMState :=
  match st.redoStack.getLast? with
  | none => (false, st)
  | some nxt =>
    (true,
      { transcripts := nxt
        undoStack := st.undoStack ++ [st.transcripts]
        redoStack := st.redoStack.dropLast })

/-- The `addSegment`. -/
def addSegment (segment : TranscriptSegment) (st : TMState) : TMState :=
  let st1 := saveState st
  { st1 with transcripts := st1.transcripts ++ [segment] }

end TranscriptManager

namespace TranslationService

/-! ### `src/lib/translation-service.ts` -/

/-- Supported language codes. -/
inductive TLang | zh | en | ms
deriving DecidableEq, Repr

/-- A request's `from` field also admits `'auto'`. -/
inductive TFrom | auto | lang (l : TLang)
deriving DecidableEq, Repr

/-- The `TranslationRequest` (the optional `context`/`formality` fields play
no role in any engine and are omitted; `from` and `to` are Lean
keywords, hence `fromLang`/`toLang`). -/
structure TranslationRequest where
  text : List Char
  fromLang : TFrom
  toLang : TLang
deriving DecidableEq, Repr

/-- The `TranslationResult`; `processingTime` is in milliseconds. -/
structure TranslationResult where
  translatedText : List Char
  confidence : ℚ
  detectedSourceLanguage : Option TLang
  alternatives : Option (List (List Char))
  contextualNotes : Option (List (List Char))
  culturalAdaptations : Option (List (List Char))
  processingTime : Int
deriving DecidableEq, Repr

/-- The error taxonomy of the thrown `Error`s of the file:
the offline engine's unsupported-pair throw, the web engine's failure
throw, and the manager's two throws. -/
inductive TransError | unsupportedPair | webFailure | allEnginesUnavailable | noEngineAvailable
deriving DecidableEq, Repr

/-- Dictionary `'zh-en'`. -/
def dictZhEn : List (List Char × List Char) :=
  [("你好", "hello"), ("再见", "goodbye"), ("谢谢", "thank you"), ("对不起", "sorry"),
   ("是的", "yes"), ("不是", "no"), ("会议", "meeting"), ("议程", "agenda"),
   ("今天", "today"), ("明天", "tomorrow"), ("项目", "project"), ("团队", "team"),
   ("工作", "work"), ("任务", "task"), ("完成", "complete"), ("开始", "start"),
   ("结束", "end"), ("讨论", "discuss"), ("决定", "decide"), ("计划", "plan")].map
    (fun p => (strL p.1, strL p.2))

/-- Dictionary `'en-zh'`. -/
def dictEnZh : List (List Char × List Char) :=
  [("hello", "你好"), ("goodbye", "再见"), ("thank you", "谢谢"), ("sorry", "对不起"),
   ("yes", "是的"), ("no", "不是"), ("meeting", "会议"), ("agenda", "议程"),
   ("today", "今天"), ("tomorrow", "明天"), ("project", "项目"), ("team", "团队"),
   ("work", "工作"), ("task", "任务"), ("complete", "完成"), ("start", "开始"),
   ("end", "结束"), ("discuss", "讨论"), ("decide", "决定"), ("plan", "计划")].map
    (fun p => (strL p.1, strL p.2))

/-- Dictionary `'ms-en'`. -/
def dictMsEn : List (List Char × List Char) :=
  [("selamat pagi", "good morning"), ("selamat petang", "good afternoon"),
   ("terima kasih", "thank you"), ("maaf", "sorry"), ("ya", "yes"), ("tidak", "no"),
   ("mesyuarat", "meeting"), ("agenda", "agenda"), ("hari ini", "today"),
   ("esok", "tomorrow"), ("projek", "project"), ("pasukan", "team"), ("kerja", "work"),
   ("tugasan", "task"), ("siap", "complete"), ("mula", "start"), ("tamat", "end")].map
    (fun p => (strL p.1, strL p.2))

/-- Dictionary `'en-ms'`. -/
def dictEnMs : List (List Char × List Char) :=
  [("good morning", "selamat pagi"), ("good afternoon", "selamat petang"),
   ("thank you", "terima kasih"), ("sorry", "maaf"), ("yes", "ya"), ("no", "tidak"),
   ("meeting", "mesyuarat"), ("agenda", "agenda"), ("today", "hari ini"),
   ("tomorrow", "esok"), ("project", "projek"), ("team", "pasukan"), ("work", "kerja"),
   ("task", "tugasan"), ("complete", "siap"), ("start", "mula"), ("end", "tamat")].map
    (fun p => (strL p.1, strL p.2))

/-- Dictionary `'zh-ms'`. -/
def dictZhMs : List (List Char × List Char) :=
  [("你好", "hello / hai"), ("谢谢", "terima kasih"), ("会议", "mesyuarat"),
   ("今天", "hari ini"), ("项目", "projek"), ("工作", "kerja")].map
    (fun p => (strL p.1, strL p.2))

/-- Dictionary `'ms-zh'`. -/
def dictMsZh : List (List Char × List Char) :=
  [("terima kasih", "谢谢"), ("mesyuarat", "会议"), ("hari ini", "今天"),
   ("projek", "项目"), ("kerja", "工作")].map (fun p => (strL p.1, strL p.2))

/-- Lookup `this.dictionaries[dictionaryKey]`: only the six cross-language keys
exist, so any same-language pair yields `undefined`. -/
def getDictionary : TLang → TLang → Option (List (List Char × List Char))
  | .zh, .en => some dictZhEn
  | .en, .zh => some dictEnZh
  | .ms, .en => some dictMsEn
  | .en, .ms => some dictEnMs
  | .zh, .ms => some dictZhMs
  | .ms, .zh => some dictMsZh
  | _, _ => none

/-- The offline engine's private `detectLanguage`: CJK presence, then the
Malay function-word test `/\b(yang|dan|atau|dengan|ini|itu)\b/i` (which
holds exactly when some maximal word run equals one of the alternatives,
case-insensitively), else English. -/
def offlineDetectLanguage (text : List Char) : TLang :=
  if text.any isCJK then .zh
  else if
      (wordRuns text).any (fun r =>
        (["yang", "dan", "atau", "dengan", "ini", "itu"].map strL).contains
          (r.map Char.toLower)) then .ms
  else .en

/-- The source language a request resolves to inside the offline engine. -/
def resolveSource (request : TranslationRequest) : TLang :=
  match request.fromLang with
  | .auto => offlineDetectLanguage request.text
  | .lang l => l

/-- Replace every (left-to-right, non-overlapping) occurrence of
`needle` in the text by `repl` — `String.prototype.replace` with a
global regex whose pattern is the plain (special-character-free)
dictionary term. -/
def replaceAllSeq (needle repl : List Char) : List Char → List Char
  | [] => []
  | c :: rest =>
    if needle.isEmpty then c :: rest
    else if startsWithSeq needle (c :: rest) then
      repl ++ replaceAllSeq needle repl ((c :: rest).drop needle.length)
    else c :: replaceAllSeq needle repl rest
termination_by s => s.length
decreasing_by
  all_goals simp only [List.length_cons, List.length_drop]
  · rename_i hne _
    have hlen : 0 < needle.length := by
      cases needle with
      | nil => simp [List.isEmpty] at hne
      | cons a as => simp
    omega
  · omega

/-- JS `charAt(0).toUpperCase() + slice(1)`. -/
def capitalizeFirstLetter : List Char → List Char
  | [] => []
  | c :: rest => c.toUpper :: rest

/-- The `getCulturalAdaptations`. -/
def getCulturalAdaptations (text : List Char) (srcLang toLang : TLang) : List (List Char) :=
  (if srcLang = .zh ∧ toLang = .en then
    (if hasSubSeq (strL "老板") text then
      [strL "在西方文化中，可能更倾向于使用\"manager\"或\"supervisor\""] else []) ++
    (if hasSubSeq (strL "师傅") text then
      [strL "西方文化中通常称为\"expert\"或\"specialist\""] else [])
  else []) ++
  (if srcLang = .en ∧ toLang = .ms then
    (if hasSubSeq (strL "sir") text || hasSubSeq (strL "madam") text then
      [strL "马来文化中更常用\"encik\"或\"puan\"作为敬称"] else [])
  else [])

/-- The dictionary-substitution loop of the offline `translate`: fold
over the dictionary entries in insertion order; each entry whose source
term occurs in the *current* text replaces all its occurrences (the
text was lowercased up front and every replacement target is already
lowercase, so the `gi` regex is plain substitution) and adds 0.2 to the
confidence. -/
def substitutionPass (dict : List (List Char × List Char)) (text0 : List Char) :
    List Char × ℚ :=
  dict.foldl
    (fun acc entry =>
      if hasSubSeq (entry.1.map Char.toLower) acc.1 then
        (replaceAllSeq (entry.1.map Char.toLower) entry.2 acc.1, acc.2 + 2/10)
      else acc)
    (text0, 3/10)

/-- The `try` body of `OfflineTranslationEngine.translate`; the missing
dictionary throws the unsupported-language-pair error.  `elapsed` stands
for `Date.now() - startTime`. -/
def offlineTranslateCore (elapsed : Int) (request : TranslationRequest) :
    Except TransError TranslationResult :=
  match getDictionary (resolveSource request) request.toLang with
  | none => .error .unsupportedPair
  | some dictionary =>
    let pass := substitutionPass dictionary (request.text.map Char.toLower)
    let wrapped := pass.2 ≤ 3/10
    .ok
      { translatedText :=
          capitalizeFirstLetter
            (if wrapped then strL "[" ++ request.text ++ strL "]" else pass.1)
        confidence := jsMinQ (if wrapped then 1/10 else pass.2) 1
        detectedSourceLanguage := some (resolveSource request)
        alternatives := some []
        contextualNotes := some (if wrapped then [strL "部分内容无法翻译，保持原文"] else [])
        culturalAdaptations :=
          some (getCulturalAdaptations request.text (resolveSource request) request.toLang)
        processingTime := elapsed }

/-- The `OfflineTranslationEngine.translate`: the whole body is wrapped in
`try/catch`, and the catch returns the original text with confidence 0
and an explanatory note — so the engine's promise never rejects. -/
def offlineTranslate (elapsed : Int) (request : TranslationRequest) : TranslationResult :=
  match offlineTranslateCore elapsed request with
  | .ok result => result
  | .error _ =>
    { translatedText := request.text
      confidence := 0
      detectedSourceLanguage := none
      alternatives := none
      contextualNotes := some [strL "翻译失败，显示原文"]
      culturalAdaptations := none
      processingTime := elapsed }

/-- The manager's two engines, in `initializeEngines` order (the web
engine first, the offline engine as the fallback/last engine). -/
inductive Engine | web | offline
deriving DecidableEq, Repr

/-- The nondeterministic environment of one `translate` call: the web
engine's availability probe (`Math.random() > 0.1`) and its translate
outcome (a simulated network service: any result, or a rejection), plus
the measured elapsed time used by the offline engine.  Everything the
embedding proves holds for every environment. -/
structure Env where
  webAvailable : Bool
  webTranslate : TranslationRequest → Except TransError TranslationResult
  elapsed : Int

/-- Method `isAvailable()` per engine: the offline engine always reports
itself available. -/
def engineAvailable (env : Env) : Engine → Bool
  | .web => env.webAvailable
  | .offline => true

/-- Method `engine.translate(request)` per engine (as an `Except`, since the
web engine's promise may reject; the offline engine's never does). -/
def invokeEngine (env : Env) : Engine → TranslationRequest → Except TransError TranslationResult
  | .web, request => env.webTranslate request
  | .offline, request => .ok (offlineTranslate env.elapsed request)

/-- The `TranslationManager` instance state: preferred engine and the
bounded `Map` cache (association list in key-insertion order). -/
structure MgrState where
  preferredEngine : Option Engine
  cache : List (List Char × TranslationResult)
deriving DecidableEq, Repr

/-- A fresh manager (`new TranslationManager()`). -/
def initialMgrState : MgrState := { preferredEngine := none, cache := [] }

/-- The `maxCacheSize`. -/
def maxCacheSize : Nat := 100

/-- The `getCacheKey`: `` `${from}-${to}:${text}` ``. -/
def getCacheKey (request : TranslationRequest) : List Char :=
  (match request.fromLang with
   | .auto => strL "auto"
   | .lang .zh => strL "zh"
   | .lang .en => strL "en"
   | .lang .ms => strL "ms") ++
  strL "-" ++
  (match request.toLang with
   | .zh => strL "zh" | .en => strL "en" | .ms => strL "ms") ++
  strL ":" ++ request.text

/-- JS `Map.prototype.set`: update in place if the key exists, else append. -/
def mapSet (cache : List (List Char × TranslationResult)) (key : List Char)
    (result : TranslationResult) : List (List Char × TranslationResult) :=
  if (cache.find? (fun p => p.1 == key)).isSome then
    cache.map (fun p => if p.1 == key then (key, result) else p)
  else cache ++ [(key, result)]

/-- The `cacheResult`: evict the oldest insertion (the map's first key) when
the bound is reached, then set. -/
def cacheResult (key : List Char) (result : TranslationResult) (st : MgrState) : MgrState :=
  let c := if maxCacheSize ≤ st.cache.length then st.cache.tail else st.cache
  { st with cache := mapSet c key result }

/-- The `selectEngine`: keep the preferred engine while it reports available,
else adopt the first available engine in priority order; throws
(unreachably, since the offline engine is always available) when no
engine is. -/
def selectEngine (env : Env) (st : MgrState) : Except TransError (Engine × MgrState) :=
  match st.preferredEngine with
  | some e =>
    if engineAvailable env e then .ok (e, st)
    else if engineAvailable env .web then .ok (.web, { st with preferredEngine := some .web })
    else if engineAvailable env .offline then
      .ok (.offline, { st with preferredEngine := some .offline })
    else .error .noEngineAvailable
  | none =>
    if engineAvailable env .web then .ok (.web, { st with preferredEngine := some .web })
    else if engineAvailable env .offline then
      .ok (.offline, { st with preferredEngine := some .offline })
    else .error .noEngineAvailable

/-- The `TranslationManager.translate`: cache hit short-circuits with zero
reported latency; otherwise invoke the selected engine, falling back
once to the last (offline) engine, caching any successful result, and
surfacing `allEnginesUnavailable` only if the fallback also rejects. -/
def translate (env : Env) (st : MgrState) (request : TranslationRequest) :
    Except TransError TranslationResult × MgrState :=
  match st.cache.find? (fun p => p.1 == getCacheKey request) with
  | some cached => (.ok { cached.2 with processingTime := 0 }, st)
  | none =>
    match selectEngine env st with
    | .error e => (.error e, st)
    | .ok (engine, st1) =>
      match invokeEngine env engine request with
      | .ok result => (.ok result, cacheResult (getCacheKey request) result st1)
      | .error e =>
        if engine ≠ .offline then
          match invokeEngine env .offline request with
          | .ok result => (.ok result, cacheResult (getCacheKey request) result st1)
          | .error _ => (.error .allEnginesUnavailable, st1)
        else (.error e, st1)

end TranslationService

namespace TranslationService

/-! ### Interleaving model of concurrent `translate` calls

`TranslationManager.translate` is an `async` method: its synchronous
prefix ends at the cache lookup / engine selection (`await
this.selectEngine()` suspends while probing `isAvailable`, which itself
awaits), and the engine invocation, fallback and cache write happen
after further suspension points (`await engine.translate(...)`).  A call
is therefore modelled as two atomic phases split at that suspension:

* phase one — the cache lookup and engine selection;
* phase two — the engine invocation(s), the cache write and the return.

Treating each phase as atomic only *coarsens* the real interleaving (the
genuine code has even more suspension points inside each phase), so
every schedule of this model corresponds to a real execution order. -/

/-- The state of one in-flight `translate` call. -/
inductive CallPhase
  | start
  | invokeReady (engine : Engine)
  | done (r : Except TransError TranslationResult)
deriving Repr

/-- A pool of concurrent identical calls over one manager instance,
with a counter of underlying `engine.translate` invocations. -/
structure RunState where
  mgr : MgrState
  calls : List CallPhase
  engineCalls : Nat
deriving Repr

/-- Pool of `n` identical callers against a fresh manager. -/
def initRun (n : Nat) : RunState :=
  { mgr := initialMgrState, calls := List.replicate n .start, engineCalls := 0 }

/-- One atomic phase of one call (mirrors the branches of `translate`,
with `count` tracking every `engine.translate` invocation, fallback
included). -/
def stepCall (env : Env) (request : TranslationRequest) (mgr : MgrState) (count : Nat) :
    CallPhase → CallPhase × MgrState × Nat
  | .start =>
    match mgr.cache.find? (fun p => p.1 == getCacheKey request) with
    | some cached => (.done (.ok { cached.2 with processingTime := 0 }), mgr, count)
    | none =>
      match selectEngine env mgr with
      | .error e => (.done (.error e), mgr, count)
      | .ok (engine, mgr1) => (.invokeReady engine, mgr1, count)
  | .invokeReady engine =>
    match invokeEngine env engine request with
    | .ok result => (.done (.ok result), cacheResult (getCacheKey request) result mgr, count + 1)
    | .error e =>
      if engine ≠ .offline then
        match invokeEngine env .offline request with
        | .ok result => (.done (.ok result), cacheResult (getCacheKey request) result mgr, count + 2)
        | .error _ => (.done (.error .allEnginesUnavailable), mgr, count + 2)
      else (.done (.error e), mgr, count + 1)
  | .done r => (.done r, mgr, count)

/-- Run a schedule: each entry names the caller that performs its next
pending phase. -/
def runSched (env : Env) (request : TranslationRequest) : List Nat → RunState → RunState
  | [], rs => rs
  | i :: rest, rs =>
    match rs.calls.get? i with
    | none => runSched env request rest rs
    | some phase =>
      let s := stepCall env request rs.mgr rs.engineCalls phase
      runSched env request rest { mgr := s.2.1, calls := rs.calls.set i s.1, engineCalls := s.2.2 }

end TranslationService

namespace AudioManager

/-! ### `src/lib/audio-manager.ts`

The metric computations run on `Uint8Array` buffers (entries 0..255).
All intermediate sums are exact, but the divisions can produce the IEEE
`NaN` on zero-length buffers (`0/0`), so JS numbers are modelled here by
`JSNum`: an exact rational together with the three IEEE special values. -/

/-- A JS number: a (finite, exactly represented) rational, `NaN`, or a
signed infinity. -/
inductive JSNum | num (q : ℚ) | nan | inf | negInf
deriving DecidableEq, Repr

/-- JS division of two finite numbers (`0/0 = NaN`, `±x/0 = ±Infinity`). -/
def jsDiv (a b : ℚ) : JSNum :=
  if b = 0 then (if a = 0 then .nan else if 0 < a then .inf else .negInf)
  else .num (a / b)

/-- Fixed-iteration Newton step list for the square root. -/
def sqrtNewton : Nat → ℚ → ℚ → ℚ
  | 0, _, x => x
  | n + 1, q, x => sqrtNewton n q ((x + q / x) / 2)

/-- Stand-in for `Math.sqrt` on non-negative rationals: `0 ↦ 0`, else an
8-step Newton approximation.  The exact positive value is irrelevant to
every claim (only `sqrt NaN = NaN` and `sqrt 0 = 0` are ever used); an
IEEE-exact model is not attempted. -/
def ratSqrtApprox (q : ℚ) : ℚ := if q = 0 then 0 else sqrtNewton 8 q ((q + 1) / 2)

/-- JS `Math.sqrt` on a JS number. -/
def jsSqrt : JSNum → JSNum
  | .num q => if q < 0 then .nan else .num (ratSqrtApprox q)
  | .nan => .nan
  | .inf => .inf
  | .negInf => .nan

/-- JS subtraction. -/
def JSNum.sub : JSNum → JSNum → JSNum
  | .num a, .num b => .num (a - b)
  | .nan, _ => .nan
  | _, .nan => .nan
  | .inf, .inf => .nan
  | .inf, _ => .inf
  | .negInf, .negInf => .nan
  | .negInf, _ => .negInf
  | .num _, .inf => .negInf
  | .num _, .negInf => .inf

/-- JS multiplication. -/
def JSNum.mul : JSNum → JSNum → JSNum
  | .num a, .num b => .num (a * b)
  | .nan, _ => .nan
  | _, .nan => .nan
  | .inf, .inf => .inf
  | .inf, .negInf => .negInf
  | .negInf, .inf => .negInf
  | .negInf, .negInf => .inf
  | .inf, .num b => if b = 0 then .nan else if 0 < b then .inf else .negInf
  | .num a, .inf => if a = 0 then .nan else if 0 < a then .inf else .negInf
  | .negInf, .num b => if b = 0 then .nan else if 0 < b then .negInf else .inf
  | .num a, .negInf => if a = 0 then .nan else if 0 < a then .negInf else .inf

/-- JS division lifted to JS numbers (only finite/`NaN` dividends and
finite divisors occur in this file). -/
def JSNum.div : JSNum → JSNum → JSNum
  | .num a, .num b => jsDiv a b
  | .nan, _ => .nan
  | _, .nan => .nan
  | .inf, .num b => if b < 0 then .negInf else .inf
  | .negInf, .num b => if b < 0 then .inf else .negInf
  | .num _, .inf => .num 0
  | .num _, .negInf => .num 0
  | .inf, _ => .nan
  | .negInf, _ => .nan

/-- JS `Math.min` on JS numbers: `NaN` wins. -/
def jsMinN : JSNum → JSNum → JSNum
  | .nan, _ => .nan
  | _, .nan => .nan
  | .num a, .num b => .num (if a ≤ b then a else b)
  | .negInf, _ => .negInf
  | _, .negInf => .negInf
  | .num a, .inf => .num a
  | .inf, b => b

/-- The `calculateVolume`: RMS of the centred, 1/128-normalized time-domain
samples — `sqrt((Σ ((d[i]-128)/128)²) / length)`, which is `NaN` for a
zero-length buffer. -/
def calculateVolume (timeDomainData : List ℤ) : JSNum :=
  let sum : ℚ :=
    (timeDomainData.map (fun v => (((v - 128 : ℤ) : ℚ) / 128) * (((v - 128 : ℤ) : ℚ) / 128))).sum
  jsSqrt (jsDiv sum (timeDomainData.length : ℚ))

/-- The `estimateAudioQuality`: mid-band average against high-band average;
`Math.floor(length * 0.2)` and `Math.floor(length * 0.7)` agree with the
integer divisions below on every buffer length. -/
def estimateAudioQuality (frequencyData : List ℤ) : JSNum :=
  let n := frequencyData.length
  let highFreqStart := n * 7 / 10
  let midFreqStart := n * 2 / 10
  let midFreqSum : ℚ :=
    (((frequencyData.drop midFreqStart).take (highFreqStart - midFreqStart)).map
      (fun v => (v : ℚ))).sum
  let highFreqSum : ℚ := ((frequencyData.drop highFreqStart).map (fun v => (v : ℚ))).sum
  let midFreqAvg := jsDiv midFreqSum ((highFreqStart - midFreqStart : Nat) : ℚ)
  let highFreqAvg := jsDiv highFreqSum ((n - highFreqStart : Nat) : ℚ)
  jsMinN (.num 1)
    ((midFreqAvg.div (.num 255)).mul ((JSNum.num 1).sub (highFreqAvg.div (.num 255))))

/-- The `estimateBackgroundNoise`: average of the lowest tenth of the
frequency buffer, normalized by 255. -/
def estimateBackgroundNoise (frequencyData : List ℤ) : JSNum :=
  let lowFreqEnd := frequencyData.length / 10
  let lowFreqSum : ℚ := ((frequencyData.take lowFreqEnd).map (fun v => (v : ℚ))).sum
  (jsDiv lowFreqSum ((lowFreqEnd : Nat) : ℚ)).div (.num 255)

/-- Magnitude correlation at one candidate lag. -/
def corrAt (timeDomainData : List ℤ) (period : Nat) : ℤ :=
  (List.range (timeDomainData.length - period)).foldl
    (fun acc i =>
      acc + ((timeDomainData.getD i 0 - 128) * (timeDomainData.getD (i + period) 0 - 128)).natAbs)
    0

/-- The `estimatePitch`: scan lags 8..999, keep the lag with the greatest
(strictly improving) correlation sum; `sampleRate / bestLag`, or 0 when
no lag ever beat the initial 0. -/
def estimatePitch (timeDomainData : List ℤ) (sampleRate : ℚ) : JSNum :=
  let best :=
    (List.range' 8 992).foldl
      (fun acc period =>
        if acc.1 < corrAt timeDomainData period then (corrAt timeDomainData period, period)
        else acc)
      ((0 : ℤ), (0 : Nat))
  if 0 < best.2 then .num (sampleRate / (best.2 : ℚ)) else .num 0

/-- The `AudioMetrics`. -/
structure AudioMetrics where
  volume : JSNum
  frequency : List JSNum
  pitch : JSNum
  quality : JSNum
  backgroundNoise : JSNum
deriving DecidableEq, Repr

/-- The configured sample rate (`config.sampleRate`). -/
def sampleRateCfg : ℚ := 16000

/-- The `getAudioMetrics`: all-zero when no analyser exists; otherwise the
analyser supplies the frequency-domain and time-domain byte buffers
(both of length `frequencyBinCount`) and the four estimators run on
them. -/
def getAudioMetrics (analyser : Option (List ℤ × List ℤ)) (sampleRate : ℚ) : AudioMetrics :=
  match analyser with
  | none =>
    { volume := .num 0, frequency := [], pitch := .num 0, quality := .num 0,
      backgroundNoise := .num 0 }
  | some (dataArray, timeDomainArray) =>
    { volume := calculateVolume timeDomainArray
      frequency := dataArray.map (fun v => jsDiv (v : ℚ) 255)
      pitch := estimatePitch timeDomainArray sampleRate
      quality := estimateAudioQuality dataArray
      backgroundNoise := estimateBackgroundNoise dataArray }

end AudioManager

/-! ### Spec-side definition used by claim C4

The only definition in this file that follows the specification's words
rather than the source: the confidence blend as the spec states it, for
comparison against the embedded `calculateConfidence`. -/

namespace LanguageDetector

/-- The confidence blend as claim C4 words it: 0.7 times the primary
language's normalized simplex score plus 0.3 times the average
confidence of the *same-language entries* among the last 10 history
records (when any exist), capped at 1. -/
def specBlendedConfidence (b : LanguageBreakdown) (primaryLanguage : Lang)
    (hist : List HistoryEntry) : ℚ :=
  let recent := takeLast 10 hist
  let same := recent.filter (fun h => h.language == primaryLanguage.toDet)
  if same.length = 0 then jsMinQ (b.get primaryLanguage) 1
  else
    jsMinQ
      (b.get primaryLanguage * (7/10) +
        ((same.map (fun h => h.confidence)).sum / (same.length : ℚ)) * (3/10)) 1

end LanguageDetector

open LanguageDetector TranscriptManager TranslationService AudioManager

/-! ### Concrete fixtures used by witnesses and counterexamples -/

/-- A one-record detection history. -/
def histEn1 : List LanguageDetector.HistoryEntry :=
  [{ language := .en, timestamp := 0, confidence := 1 }]

/-- An environment whose web engine is unavailable and rejects, with a
5 ms measured latency. -/
def envNoWeb : Env :=
  { webAvailable := false, webTranslate := fun _ => .error .webFailure, elapsed := 5 }

/-- The request `{text: "hello", from: "en", to: "zh"}`. -/
def reqHello : TranslationRequest := { text := strL "hello", fromLang := .lang .en, toLang := .zh }

/-- The same-language request `{text: "hello", from: "en", to: "en"}`. -/
def reqEnEn : TranslationRequest := { text := strL "hello", fromLang := .lang .en, toLang := .en }

/-- A two-segment transcript store state. -/
def segA : TranscriptManager.TranscriptSegment :=
  { id := strL "a", speakerId := strL "speaker1", content := strL "hi there", timestamp := 0
    languageData :=
      { detectedLanguages := [], primaryLanguage := strL "en", confidence := 1,
        translations := none, culturalNotes := none }
    metadata :=
      { audioQuality := 1, backgroundNoise := 0, speakingSpeed := 1,
        emotionalTone := strL "neutral", isMerged := none, originalSegmentIds := none } }

/-- Second fixture segment, one second later. -/
def segB : TranscriptManager.TranscriptSegment :=
  { segA with id := strL "b", content := strL "ok", timestamp := 1000 }

/-- A store holding the two fixture segments with empty stacks. -/
def stAB : TMState := { transcripts := [segA, segB], undoStack := [], redoStack := [] }

/-- Decidable equality of translation outcomes (not derived for
`Except` by the core library). -/
instance : DecidableEq (Except TransError TranslationResult) := fun a b =>
  match a, b with
  | .ok x, .ok y =>
    if h : x = y then isTrue (by rw [h]) else isFalse (by simp [h])
  | .error x, .error y =>
    if h : x = y then isTrue (by rw [h]) else isFalse (by simp [h])
  | .ok _, .error _ => isFalse (by simp)
  | .error _, .ok _ => isFalse (by simp)


/-! ### Helper lemmas -/

/-- The normalized breakdown always sums to exactly 1. -/
theorem normalizeScores_sum (s : LangScores) :
    (normalizeScores s).zh + (normalizeScores s).en + (normalizeScores s).ms = 1 := by
  unfold normalizeScores
  by_cases h : s.zh + s.en + s.ms = 0
  · simp [h]
  · simp only [h, if_false]
    field_simp

/-- With a zero total, normalization defaults to full weight on English. -/
theorem normalizeScores_zero (s : LangScores) (h : s.zh + s.en + s.ms = 0) :
    normalizeScores s = { zh := 0, en := 1, ms := 0 } := by
  unfold normalizeScores
  simp [h]

/-- The `saveState` leaves the pre-mutation snapshot on top of the undo
stack (eviction only drops from the bottom). -/
theorem saveState_getLast (st : TMState) :
    (saveState st).undoStack.getLast? = some st.transcripts := by
  unfold saveState
  cases h : st.undoStack with
  | nil => simp [maxUndoSteps]
  | cons y l =>
    simp only [List.cons_append, List.tail_cons]
    split
    · exact List.getLast?_concat _
    · rw [← List.cons_append]
      exact List.getLast?_concat _

/-- The `selectEngine` never throws: the offline engine always reports
available, so the probe loop always adopts an engine. -/
theorem selectEngine_ok (env : Env) (st : MgrState) :
    ∃ e st1, selectEngine env st = .ok (e, st1) := by
  unfold selectEngine
  cases h : st.preferredEngine with
  | none =>
    cases hw : env.webAvailable with
    | true => exact ⟨.web, { st with preferredEngine := some .web },
        by simp [engineAvailable, hw]⟩
    | false => exact ⟨.offline, { st with preferredEngine := some .offline },
        by simp [engineAvailable, hw]⟩
  | some e =>
    cases e with
    | offline => exact ⟨.offline, st, by simp [engineAvailable]⟩
    | web =>
      cases hw : env.webAvailable with
      | true => exact ⟨.web, st, by simp [engineAvailable, hw]⟩
      | false => exact ⟨.offline, { st with preferredEngine := some .offline },
          by simp [engineAvailable, hw]⟩

/-- Replacing the bound value of a present key keeps it findable. -/
theorem find_map_replace (c : List (List Char × TranslationResult)) (key : List Char)
    (r : TranslationResult) (h : (c.find? (fun p => p.1 == key)).isSome = true) :
    (c.map (fun p => if p.1 == key then (key, r) else p)).find? (fun p => p.1 == key) =
      some (key, r) := by
  induction c with
  | nil => simp [List.find?] at h
  | cons a c ih =>
    by_cases ha : (a.1 == key) = true
    · simp only [List.map_cons, ha, if_true]
      exact List.find?_cons_of_pos _ (by simp)
    · simp only [List.map_cons, ha, if_false]
      rw [List.find?_cons_of_neg _ (by simp [ha])]
      apply ih
      rwa [List.find?_cons_of_neg _ (by simp [ha])] at h

/-- Appending a fresh binding for an absent key makes it findable. -/
theorem find_append_absent (c : List (List Char × TranslationResult)) (key : List Char)
    (r : TranslationResult) (h : c.find? (fun p => p.1 == key) = none) :
    (c ++ [(key, r)]).find? (fun p => p.1 == key) = some (key, r) := by
  induction c with
  | nil => exact List.find?_cons_of_pos _ (by simp)
  | cons a c ih =>
    have ha : (a.1 == key) = false := by
      cases hx : (a.1 == key) with
      | false => rfl
      | true =>
        rw [List.find?_cons_of_pos _ (by simpa using hx)] at h
        exact absurd h (by simp)
    simp only [List.cons_append]
    rw [List.find?_cons_of_neg _ (by simp [ha])]
    apply ih
    rwa [List.find?_cons_of_neg _ (by simp [ha])] at h

/-- After `mapSet`, looking the key up finds exactly the new binding. -/
theorem mapSet_find (c : List (List Char × TranslationResult)) (key : List Char)
    (r : TranslationResult) :
    (mapSet c key r).find? (fun p => p.1 == key) = some (key, r) := by
  unfold mapSet
  split
  · exact find_map_replace c key r (by assumption)
  · rename_i hn
    exact find_append_absent c key r (Option.not_isSome_iff_eq_none.mp hn)

/-- The `cacheResult` leaves the just-produced result retrievable under its
key. -/
theorem cacheResult_find (key : List Char) (r : TranslationResult) (st : MgrState) :
    (cacheResult key r st).cache.find? (fun p => p.1 == key) = some (key, r) := by
  unfold cacheResult
  exact mapSet_find _ key r

/-- The `translate` never surfaces an error: the offline fallback's
`translate` catches everything internally, so some `.ok` result is
always returned. -/
theorem translate_ok (env : Env) (st : MgrState) (request : TranslationRequest) :
    ∃ res st2, TranslationService.translate env st request = (Except.ok res, st2) := by
  unfold TranslationService.translate
  cases hc : st.cache.find? (fun p => p.1 == getCacheKey request) with
  | some cached =>
    exact ⟨{ cached.2 with processingTime := 0 }, st, rfl⟩
  | none =>
    obtain ⟨e, st1, hsel⟩ := selectEngine_ok env st
    rw [hsel]
    cases e with
    | offline =>
      refine ⟨offlineTranslate env.elapsed request,
        cacheResult (getCacheKey request) (offlineTranslate env.elapsed request) st1, ?_⟩
      simp [invokeEngine]
    | web =>
      simp only [invokeEngine]
      cases hw : env.webTranslate request with
      | ok result => exact ⟨result, cacheResult (getCacheKey request) result st1, rfl⟩
      | error err =>
        refine ⟨offlineTranslate env.elapsed request,
          cacheResult (getCacheKey request) (offlineTranslate env.elapsed request) st1, ?_⟩
        simp

/-- Every `.ok` run of `translate` ends with the produced result stored
under the request's cache key (up to the reported processing time). -/
theorem translate_cached (env : Env) (st : MgrState) (request : TranslationRequest)
    (r : TranslationResult) (st2 : MgrState)
    (h : TranslationService.translate env st request = (Except.ok r, st2)) :
    ∃ c, st2.cache.find? (fun p => p.1 == getCacheKey request) = some (getCacheKey request, c) ∧
      ({ c with processingTime := 0 } : TranslationResult) = { r with processingTime := 0 } := by
  unfold TranslationService.translate at h
  cases hc : st.cache.find? (fun p => p.1 == getCacheKey request) with
  | some cached =>
    rw [hc] at h
    obtain ⟨k, v⟩ := cached
    have hkey : k = getCacheKey request := by
      have := List.find?_some hc
      simpa using this
    have hpair : ((Except.ok { v with processingTime := 0 } :
        Except TransError TranslationResult), st) = (Except.ok r, st2) := h
    have hr : (Except.ok { v with processingTime := 0 } :
        Except TransError TranslationResult) = Except.ok r := congrArg Prod.fst hpair
    have hst : st = st2 := congrArg Prod.snd hpair
    injection hr with hr2
    refine ⟨v, ?_, ?_⟩
    · rw [← hst, hc, hkey]
    · rw [← hr2]
  | none =>
    rw [hc] at h
    obtain ⟨e, st1, hsel⟩ := selectEngine_ok env st
    rw [hsel] at h
    cases e with
    | offline =>
      simp only [invokeEngine] at h
      have hr : (Except.ok (offlineTranslate env.elapsed request) :
          Except TransError TranslationResult) = Except.ok r := congrArg Prod.fst h
      have hst : cacheResult (getCacheKey request) (offlineTranslate env.elapsed request) st1 =
          st2 := congrArg Prod.snd h
      injection hr with hr2
      refine ⟨offlineTranslate env.elapsed request, ?_, ?_⟩
      · rw [← hst]
        exact cacheResult_find ..
      · rw [hr2]
    | web =>
      simp only [invokeEngine] at h
      cases hw : env.webTranslate request with
      | ok result =>
        rw [hw] at h
        have hr : (Except.ok result : Except TransError TranslationResult) = Except.ok r :=
          congrArg Prod.fst h
        have hst : cacheResult (getCacheKey request) result st1 = st2 := congrArg Prod.snd h
        injection hr with hr2
        refine ⟨result, ?_, ?_⟩
        · rw [← hst]
          exact cacheResult_find ..
        · rw [hr2]
      | error err =>
        rw [hw] at h
        simp only [ne_eq, reduceCtorEq, not_false_eq_true, if_true] at h
        have hr : (Except.ok (offlineTranslate env.elapsed request) :
            Except TransError TranslationResult) = Except.ok r := congrArg Prod.fst h
        have hst : cacheResult (getCacheKey request) (offlineTranslate env.elapsed request) st1 =
            st2 := congrArg Prod.snd h
        injection hr with hr2
        refine ⟨offlineTranslate env.elapsed request, ?_, ?_⟩
        · rw [← hst]
          exact cacheResult_find ..
        · rw [hr2]

/-- A dictionary exists exactly for the six cross-language pairs; the
diagonal is missing. -/
theorem getDictionary_self (l : TLang) : getDictionary l l = none := by
  cases l <;> rfl

/-! ### Claim C1 -/

/-- Claim C1, counterexample: the claim quantifies over *every* input
text, but for the empty input `detectLanguage` early-returns the
all-zero breakdown, whose components sum to 0, not 1 — and even though
no language signal exists, the breakdown is not the degenerate default
that assigns full weight to the fallback language. -/
theorem claim_C1_counterexample :
    (detectLanguage 0 (strL "") defaultDetectOptions []).1.languageBreakdown.zh +
      (detectLanguage 0 (strL "") defaultDetectOptions []).1.languageBreakdown.en +
      (detectLanguage 0 (strL "") defaultDetectOptions []).1.languageBreakdown.ms = 0 ∧
    (0 : ℚ) ≠ 1 ∧
    (detectLanguage 0 (strL "") defaultDetectOptions []).1.languageBreakdown ≠
      { zh := 0, en := 1, ms := 0 } := by
  refine ⟨?_, ?_, ?_⟩ <;> with_unfolding_all decide

/-- Claim C1 (amended): for every input text containing at least one
non-whitespace character, the returned `languageBreakdown` sums to
exactly 1, and whenever the raw scores total zero (no language signal)
the breakdown is the degenerate default giving full weight to the
fallback language English; empty/whitespace-only input instead returns
the all-zero breakdown. -/
theorem claim_C1_amended_breakdown_sum (now : Int) (text : List Char)
    (opts : DetectOptions) (hist : List HistoryEntry)
    (h : text.all isJsSpace = false) :
    ((detectLanguage now text opts hist).1.languageBreakdown.zh +
      (detectLanguage now text opts hist).1.languageBreakdown.en +
      (detectLanguage now text opts hist).1.languageBreakdown.ms = 1) ∧
    ((calculateLanguageScores (preprocessText text)).zh +
        (calculateLanguageScores (preprocessText text)).en +
        (calculateLanguageScores (preprocessText text)).ms = 0 →
      (detectLanguage now text opts hist).1.languageBreakdown =
        { zh := 0, en := 1, ms := 0 }) := by
  have hb : (detectLanguage now text opts hist).1.languageBreakdown =
      normalizeScores (calculateLanguageScores (preprocessText text)) := by
    simp [detectLanguage, h]
  rw [hb]
  exact ⟨normalizeScores_sum _, fun hz => normalizeScores_zero _ hz⟩

/-- Witness for the amended claim C1 at the concrete input `"hello"`. -/
theorem claim_C1_witness :
    (strL "hello").all isJsSpace = false ∧
    (detectLanguage 0 (strL "hello") defaultDetectOptions []).1.languageBreakdown.zh +
      (detectLanguage 0 (strL "hello") defaultDetectOptions []).1.languageBreakdown.en +
      (detectLanguage 0 (strL "hello") defaultDetectOptions []).1.languageBreakdown.ms = 1 :=
  ⟨by decide,
    (claim_C1_amended_breakdown_sum 0 (strL "hello") defaultDetectOptions [] (by decide)).1⟩

/-! ### Claim C6 -/

/-- Claim C6: for every empty or whitespace-only input text (the JS
guard `!text || text.trim().length === 0`), `detectLanguage` returns the
fallback language English with confidence 0 and the all-zero breakdown,
and leaves the detection history unchanged. -/
theorem claim_C6_empty_input (now : Int) (text : List Char) (opts : DetectOptions)
    (hist : List HistoryEntry) (h : text.all isJsSpace = true) :
    detectLanguage now text opts hist = (emptyDetectionResult, hist) ∧
    emptyDetectionResult.detectedLanguage = DetLang.en ∧
    emptyDetectionResult.confidence = 0 ∧
    emptyDetectionResult.languageBreakdown = { zh := 0, en := 0, ms := 0 } := by
  refine ⟨?_, rfl, rfl, rfl⟩
  simp [detectLanguage, h]

/-- Witness for claim C6 at the whitespace input `"  "` with a non-empty
history. -/
theorem claim_C6_witness :
    (strL "  ").all isJsSpace = true ∧
    detectLanguage 0 (strL "  ") defaultDetectOptions
        [{ language := DetLang.zh, timestamp := 0, confidence := 1 }] =
      (emptyDetectionResult, [{ language := DetLang.zh, timestamp := 0, confidence := 1 }]) :=
  ⟨by decide,
    (claim_C6_empty_input 0 (strL "  ") defaultDetectOptions
      [{ language := DetLang.zh, timestamp := 0, confidence := 1 }] (by decide)).1⟩

/-! ### Claim C4 -/

/-- Claim C4, counterexample: after detecting `"你好"` and then
`"the the"` twice with history enabled, the third call's confidence is
161/200 = 0.805, whereas the blend the claim describes (averaging over
the *same-language* entries of the window) would give 91/100 = 0.91: the
code divides the same-language confidence sum by the length of the whole
10-record window, not by the number of same-language entries. -/
theorem claim_C4_counterexample :
    (detectLanguage 2 (strL "the the") defaultDetectOptions
        (detectLanguage 1 (strL "the the") defaultDetectOptions
          (detectLanguage 0 (strL "你好") defaultDetectOptions []).2).2).1.confidence =
      161/200 ∧
    specBlendedConfidence
        (normalizeScores (calculateLanguageScores (preprocessText (strL "the the"))))
        (getPrimaryLanguage
          (normalizeScores (calculateLanguageScores (preprocessText (strL "the the"))))
          defaultDetectOptions.minConfidence)
        (detectLanguage 1 (strL "the the") defaultDetectOptions
          (detectLanguage 0 (strL "你好") defaultDetectOptions []).2).2 = 91/100 ∧
    ((161 : ℚ)/200) ≠ 91/100 := by
  refine ⟨?_, ?_, ?_⟩ <;> with_unfolding_all decide

/-- Claim C4 (amended): with history enabled and a non-empty history,
the returned confidence is 0.7 times the primary language's normalized
simplex score plus 0.3 times the *sum* of the same-language confidences
among the last 10 history records divided by the *total number* of those
last-10 records (whether or not any same-language entry exists), capped
at 1. -/
theorem claim_C4_amended_confidence_formula (now : Int) (text : List Char)
    (opts : DetectOptions) (hist : List HistoryEntry)
    (hw : text.all isJsSpace = false) (hu : opts.useHistory = true) (hh : hist ≠ []) :
    (detectLanguage now text opts hist).1.confidence =
      jsMinQ
        ((normalizeScores (calculateLanguageScores (preprocessText text))).get
            (getPrimaryLanguage
              (normalizeScores (calculateLanguageScores (preprocessText text)))
              opts.minConfidence) * (7/10) +
          (((takeLast 10 hist).filter (fun hrec => hrec.language ==
              (getPrimaryLanguage
                (normalizeScores (calculateLanguageScores (preprocessText text)))
                opts.minConfidence).toDet)).map (fun hrec => hrec.confidence)).sum /
            ((takeLast 10 hist).length : ℚ) * (3/10)) 1 := by
  have hcf : (detectLanguage now text opts hist).1.confidence =
      calculateConfidence (normalizeScores (calculateLanguageScores (preprocessText text)))
        (getPrimaryLanguage (normalizeScores (calculateLanguageScores (preprocessText text)))
          opts.minConfidence) opts.useHistory hist := by
    simp [detectLanguage, hw]
  rw [hcf]
  unfold calculateConfidence
  have hcond : (opts.useHistory && decide (0 < hist.length)) = true := by
    simp [hu, List.length_pos, hh]
  rw [hcond]
  simp

/-- Witness for the amended claim C4: text `"the the"` against the
one-record history `histEn1`. -/
theorem claim_C4_witness :
    (strL "the the").all isJsSpace = false ∧
    (detectLanguage 5 (strL "the the") defaultDetectOptions histEn1).1.confidence =
      jsMinQ
        ((normalizeScores (calculateLanguageScores (preprocessText (strL "the the")))).get
            (getPrimaryLanguage
              (normalizeScores (calculateLanguageScores (preprocessText (strL "the the"))))
              defaultDetectOptions.minConfidence) * (7/10) +
          (((takeLast 10 histEn1).filter (fun hrec => hrec.language ==
              (getPrimaryLanguage
                (normalizeScores (calculateLanguageScores (preprocessText (strL "the the"))))
                defaultDetectOptions.minConfidence).toDet)).map
            (fun hrec => hrec.confidence)).sum /
            ((takeLast 10 histEn1).length : ℚ) * (3/10)) 1 :=
  ⟨by decide,
    claim_C4_amended_confidence_formula 5 (strL "the the") defaultDetectOptions histEn1
      (by decide) rfl (by with_unfolding_all decide)⟩

/-! ### Claim C2 -/

/-- The `undo` right after a `saveState`-guarded mutation restores the
snapshotted collection. -/
theorem undo_after_saveState (st : TMState) (tr : List TranscriptSegment) :
    undo { saveState st with transcripts := tr } =
      (true, { transcripts := st.transcripts,
               undoStack := (saveState st).undoStack.dropLast,
               redoStack := [tr] }) := by
  unfold undo
  simp only [saveState_getLast]
  simp [saveState]

/-- Claim C2: every successful `mergeSegments(ids)` immediately followed
by `undo()` restores the exact pre-merge entry collection (ids and order
included). -/
theorem claim_C2_merge_undo_roundtrip (now : Nat) (ids : List (List Char)) (st r : TMState)
    (h : mergeSegments now ids st = (true, r)) :
    (undo r).1 = true ∧ (undo r).2.transcripts = st.transcripts := by
  unfold mergeSegments at h
  split at h
  · exact absurd (congrArg Prod.fst h) (by simp)
  · split at h
    · exact absurd (congrArg Prod.fst h) (by simp)
    · split at h
      · exact absurd (congrArg Prod.fst h) (by simp)
      · have hst : _ = r := congrArg Prod.snd h
        rw [← hst]
        rw [undo_after_saveState]
        exact ⟨rfl, rfl⟩

set_option maxRecDepth 40000 in
/-- Witness for claim C2: merging the two fixture segments and undoing
restores the store. -/
theorem claim_C2_witness :
    (undo (mergeSegments 7 [strL "a", strL "b"] stAB).2).1 = true ∧
    (undo (mergeSegments 7 [strL "a", strL "b"] stAB).2).2.transcripts = stAB.transcripts :=
  claim_C2_merge_undo_roundtrip 7 [strL "a", strL "b"] stAB
    (mergeSegments 7 [strL "a", strL "b"] stAB).2 (by with_unfolding_all decide)

/-! ### Claim C9 -/

/-- Claim C9: every transcript-store mutator that reports failure —
`updateSegment`/`deleteSegment` with an unknown id, `mergeSegments` with
fewer than two resolvable ids, `splitSegment` with an unknown id or an
out-of-range index — returns `false` and leaves the whole state (entry
collection, undo stack, redo stack) unchanged. -/
theorem claim_C9_failed_mutators_preserve_state (st : TMState) (sid : List Char)
    (patch : SegmentPatch) (now : Nat) (ids : List (List Char)) (idx : Nat) :
    ((updateSegment sid patch st).1 = false → (updateSegment sid patch st).2 = st) ∧
    ((deleteSegment sid st).1 = false → (deleteSegment sid st).2 = st) ∧
    ((mergeSegments now ids st).1 = false → (mergeSegments now ids st).2 = st) ∧
    ((splitSegment sid idx st).1 = false → (splitSegment sid idx st).2 = st) := by
  refine ⟨?_, ?_, ?_, ?_⟩
  · unfold updateSegment
    split
    · intro _; rfl
    · intro hcon; exact absurd hcon (by simp)
  · unfold deleteSegment
    split
    · intro _; rfl
    · intro hcon; exact absurd hcon (by simp)
  · unfold mergeSegments
    split
    · intro _; rfl
    · split
      · intro _; rfl
      · split
        · intro _; rfl
        · intro hcon; exact absurd hcon (by simp)
  · unfold splitSegment
    split
    · intro _; rfl
    · split
      · intro _; rfl
      · intro hcon; exact absurd hcon (by simp)

/-- Witness for claim C9: concrete failing calls (unknown id `"zz"`, a
single-id merge, a split at index 0) leave the fixture store untouched. -/
theorem claim_C9_witness :
    (updateSegment (strL "zz") emptyPatch stAB).2 = stAB ∧
    (deleteSegment (strL "zz") stAB).2 = stAB ∧
    (mergeSegments 0 [strL "a"] stAB).2 = stAB ∧
    (splitSegment (strL "zz") 0 stAB).2 = stAB :=
  ⟨(claim_C9_failed_mutators_preserve_state stAB (strL "zz") emptyPatch 0 [strL "a"] 0).1
      (by with_unfolding_all decide),
    (claim_C9_failed_mutators_preserve_state stAB (strL "zz") emptyPatch 0 [strL "a"] 0).2.1
      (by with_unfolding_all decide),
    (claim_C9_failed_mutators_preserve_state stAB (strL "zz") emptyPatch 0 [strL "a"] 0).2.2.1
      (by with_unfolding_all decide),
    (claim_C9_failed_mutators_preserve_state stAB (strL "zz") emptyPatch 0 [strL "a"] 0).2.2.2
      (by with_unfolding_all decide)⟩

/-! ### Claim C5 -/

/-- Claim C5: issuing the same (from, to, text) request twice in
sequence on one orchestrator instance (no intervening requests) returns
equal `translatedText` both times, and the second call reports a
processing time of 0 — the first call caches its result and the second
hits the cache. -/
theorem claim_C5_cache_idempotent (env1 env2 : Env) (st : MgrState)
    (request : TranslationRequest) (r1 : TranslationResult) (st2 : MgrState)
    (h : TranslationService.translate env1 st request = (Except.ok r1, st2)) :
    ∃ r2, TranslationService.translate env2 st2 request = (Except.ok r2, st2) ∧
      r2.translatedText = r1.translatedText ∧ r2.processingTime = 0 := by
  obtain ⟨c, hfind, heq⟩ := translate_cached env1 st request r1 st2 h
  refine ⟨{ c with processingTime := 0 }, ?_, ?_, rfl⟩
  · unfold TranslationService.translate
    rw [hfind]
  · simpa using congrArg TranslationResult.translatedText heq

set_option maxRecDepth 4000 in
/-- Witness for claim C5: the en→zh request `"hello"` against a fresh
manager in the web-unavailable environment. -/
theorem claim_C5_witness :
    ∃ r2, TranslationService.translate envNoWeb
        (TranslationService.translate envNoWeb initialMgrState reqHello).2 reqHello =
        (Except.ok r2, (TranslationService.translate envNoWeb initialMgrState reqHello).2) ∧
      r2.translatedText = (offlineTranslate 5 reqHello).translatedText ∧
      r2.processingTime = 0 :=
  claim_C5_cache_idempotent envNoWeb envNoWeb initialMgrState reqHello
    (offlineTranslate 5 reqHello)
    (TranslationService.translate envNoWeb initialMgrState reqHello).2
    (by with_unfolding_all rfl)

/-! ### Claim C8 -/

set_option maxRecDepth 4000 in
/-- Claim C8, counterexample: for the same-language request en→en (a
pair with no dictionary), `translate` surfaces *no* error at all — the
offline engine catches its internal unsupported-pair throw and returns a
degraded ok-result carrying the original text with confidence 0 — so the
claimed distinct error kind never reaches the caller. -/
theorem claim_C8_counterexample :
    (TranslationService.translate envNoWeb initialMgrState reqEnEn).1 =
      Except.ok (offlineTranslate 5 reqEnEn) ∧
    (offlineTranslate 5 reqEnEn).confidence = 0 ∧
    (offlineTranslate 5 reqEnEn).translatedText = reqEnEn.text := by
  refine ⟨by with_unfolding_all rfl, by with_unfolding_all decide,
    by with_unfolding_all decide⟩

/-- Claim C8 (amended): a language pair with no dictionary (resolved
source equal to target) raises the unsupported-language-pair error
*inside* the offline engine — an error kind distinct from
all-engines-unavailable — but the engine's own catch converts it into a
degraded result (original text, confidence 0, explanatory note), so
`TranslationManager.translate` never surfaces it. -/
theorem claim_C8_amended_unsupported_pair (elapsed : Int) (request : TranslationRequest)
    (h : resolveSource request = request.toLang) :
    offlineTranslateCore elapsed request = .error .unsupportedPair ∧
    offlineTranslate elapsed request =
      { translatedText := request.text, confidence := 0, detectedSourceLanguage := none,
        alternatives := none, contextualNotes := some [strL "翻译失败，显示原文"],
        culturalAdaptations := none, processingTime := elapsed } ∧
    TransError.unsupportedPair ≠ TransError.allEnginesUnavailable ∧
    (∀ env st, ∃ res st2,
      TranslationService.translate env st request = (Except.ok res, st2)) := by
  have hcore : offlineTranslateCore elapsed request = .error .unsupportedPair := by
    unfold offlineTranslateCore
    rw [h, getDictionary_self]
  refine ⟨hcore, ?_, by decide, fun env st => translate_ok env st request⟩
  unfold offlineTranslate
  rw [hcore]

/-- Witness for the amended claim C8 at the en→en request. -/
theorem claim_C8_witness :
    offlineTranslateCore 5 reqEnEn = .error .unsupportedPair ∧
    offlineTranslate 5 reqEnEn =
      { translatedText := reqEnEn.text, confidence := 0, detectedSourceLanguage := none,
        alternatives := none, contextualNotes := some [strL "翻译失败，显示原文"],
        culturalAdaptations := none, processingTime := 5 } :=
  ⟨(claim_C8_amended_unsupported_pair 5 reqEnEn (by decide)).1,
    (claim_C8_amended_unsupported_pair 5 reqEnEn (by decide)).2.1⟩

/-! ### Claim C10 -/

/-- Claim C10: `TranslationManager.translate` never surfaces the
all-engines-unavailable failure: the offline engine always reports
itself available and its `translate` catches every internal error, so
every call returns an ok-result for every environment, state and
request. -/
theorem claim_C10_translate_total (env : Env) (st : MgrState)
    (request : TranslationRequest) :
    engineAvailable env Engine.offline = true ∧
    (TranslationService.translate env st request).1 ≠
      Except.error TransError.allEnginesUnavailable ∧
    ∃ res st2, TranslationService.translate env st request = (Except.ok res, st2) := by
  obtain ⟨res, st2, hok⟩ := translate_ok env st request
  refine ⟨rfl, ?_, res, st2, hok⟩
  rw [hok]
  simp

/-! ### Claim C3 -/

/-- Claim C3, counterexample: two identical en→zh requests whose
executions overlap (both pass the cache check before either completes —
schedule caller 0 / caller 1 / caller 0 / caller 1) perform **two**
underlying engine invocations, not one: `TranslationManager.translate`
has no in-flight request map, only the completed-result cache. -/
theorem claim_C3_counterexample :
    (runSched envNoWeb reqHello [0, 1, 0, 1] (initRun 2)).engineCalls = 2 ∧
    (2 : Nat) ≠ 1 := by
  exact ⟨by with_unfolding_all rfl, by decide⟩

/-- Claim C3 (amended): identical concurrent requests are *not*
coalesced — under the interleaving in which both callers pass the cache
check before either completes, each performs its own engine invocation
(two calls, two invocations); de-duplication happens only through the
completed-result cache, as in the fully sequential schedule, where the
second caller hits the cache and only one invocation occurs. -/
theorem claim_C3_amended_no_inflight_dedup (env : Env) (request : TranslationRequest)
    (h : env.webAvailable = false) :
    (runSched env request [0, 1, 0, 1] (initRun 2)).engineCalls = 2 ∧
    (runSched env request [0, 0, 1, 1] (initRun 2)).engineCalls = 1 := by
  constructor <;>
    simp [runSched, stepCall, initRun, initialMgrState, selectEngine, engineAvailable, h,
      invokeEngine, cacheResult, mapSet, maxCacheSize, List.replicate, List.find?]

/-- Witness for the amended claim C3 in the concrete web-unavailable
environment. -/
theorem claim_C3_witness :
    (runSched envNoWeb reqEnEn [0, 1, 0, 1] (initRun 2)).engineCalls = 2 ∧
    (runSched envNoWeb reqEnEn [0, 0, 1, 1] (initRun 2)).engineCalls = 1 :=
  claim_C3_amended_no_inflight_dedup envNoWeb reqEnEn rfl

/-! ### Claim C7 -/

/-- On a zero-length buffer no candidate lag ever improves on the
initial zero correlation, so the estimated pitch is 0. -/
theorem corrAt_nil (period : Nat) : corrAt [] period = 0 := by
  simp [corrAt]

/-- The lag scan of `estimatePitch` never leaves the initial state on an
empty buffer. -/
theorem estimatePitch_nil (sampleRate : ℚ) : estimatePitch [] sampleRate = .num 0 := by
  unfold estimatePitch
  have hfold : ∀ (l : List Nat),
      (l.foldl
        (fun (acc : ℤ × Nat) period =>
          if acc.1 < corrAt [] period then (corrAt [] period, period) else acc)
        ((0 : ℤ), (0 : Nat))) = ((0 : ℤ), (0 : Nat)) := by
    intro l
    induction l with
    | nil => rfl
    | cons p ps ih => simpa [corrAt_nil] using ih
  rw [hfold]
  simp

/-- Claim C7 concerns a code bug: on zero-length (absent/invalid) input
buffers the metric computations do **not** yield all-zero output — the
`0/0` divisions make volume, quality and backgroundNoise `NaN` (only
pitch is 0), while the all-zero record is produced only on the separate
no-analyser path. -/
theorem claim_C7_zero_length_nan :
    getAudioMetrics (some ([], [])) sampleRateCfg =
      { volume := JSNum.nan, frequency := [], pitch := JSNum.num 0,
        quality := JSNum.nan, backgroundNoise := JSNum.nan } ∧
    getAudioMetrics none sampleRateCfg =
      { volume := JSNum.num 0, frequency := [], pitch := JSNum.num 0,
        quality := JSNum.num 0, backgroundNoise := JSNum.num 0 } ∧
    JSNum.nan ≠ JSNum.num 0 := by
  refine ⟨?_, rfl, by decide⟩
  have hv : calculateVolume ([] : List ℤ) = JSNum.nan := by with_unfolding_all decide
  have hq : estimateAudioQuality ([] : List ℤ) = JSNum.nan := by with_unfolding_all decide
  have hn : estimateBackgroundNoise ([] : List ℤ) = JSNum.nan := by with_unfolding_all decide
  have hp : estimatePitch ([] : List ℤ) sampleRateCfg = JSNum.num 0 := estimatePitch_nil _
  simp [getAudioMetrics, hv, hq, hn, hp]
